import Mathlib

/-!
Verification of the MAVLink v2 streaming frame codec and telemetry session
of the `metec-sensor` repository.

The embedding below translates the Rust sources:
  * `src/mavlink/codec.rs` — `MavMessageCodec::decode` / `MavMessageCodec::encode`
  * `src/mavlink/telem.rs` — `Telem::try_new`, `Telem::send`, `Telem::recv`,
    `Telem::heartbeat_message`, `heartbeat_stream`
  * `src/util.rs` — `from_string_to_u8`
  * `src/error.rs` — `SensorError` (the constructors the codec can produce)

Machine integers are modelled as `Nat` with explicit `% 256` / `% 65536`
where wraparound matters.  Byte buffers (`bytes::BytesMut`) are modelled as
`List Nat`; the `bytes` crate operations that panic on underflow are modelled
as `Option`-returning functions, with `none` standing for a panic.
-/

namespace MetecSensor

/-! ## CRC-16/MCRF4XX

`crc_any::CRCu16::crc16mcrf4cc`: reflected polynomial `0x8408`,
initial value `0xFFFF`, no final xor.  One step of the reflected LFSR: -/

/-- One bit-step of the reflected CRC-16/MCRF4XX register. -/
def crcStep (c : Nat) : Nat :=
  if c % 2 = 1 then (c / 2) ^^^ 0x8408 else c / 2

/-- Digest one byte into the CRC register (xor in the byte, then 8 bit-steps). -/
def crcByte (c b : Nat) : Nat := crcStep^[8] (c ^^^ b)

/-- `CRCu16::digest`: fold a byte sequence into the register. -/
def crcDigest (c : Nat) (bs : List Nat) : Nat := bs.foldl crcByte c

/-- The full CRC-16/MCRF4XX of a byte sequence (register initialised to `0xFFFF`). -/
def crc16mcrf4cc (bs : List Nat) : Nat := crcDigest 0xFFFF bs

/-! ## Errors (`src/error.rs`)

Only the constructors reachable from the codec/session paths matter here;
`mavlinkParsingError` is the image of `SensorError::MavlinkParsingError`
(`#[from] ParserError`), produced by `decode` when the message catalog
rejects a payload. -/

/-- The error enum of `src/error.rs`, restricted to payload-irrelevant data. -/
inductive SensorError where
  | mavlinkConnectionError
  | serialError
  | mavlinkSendError
  | mavlinkParsingError
  | mavlinkRecvError
  | other
deriving DecidableEq, Repr

/-- `mavlink::MavHeader`: sequence, system id, component id (all `u8`). -/
structure MavHeader where
  sequence : Nat
  system_id : Nat
  component_id : Nat
deriving DecidableEq, Repr

/-- The external message catalog capability used generically by the codec
(`M: mavlink::Message` in the source): per-message extra-CRC seed byte,
payload parsing (always invoked at `MavlinkVersion::V2` in the source),
and — for the spec-modelled encoder — payload serialization and message id. -/
structure Catalog (M : Type) where
  extra_crc : Nat → Nat
  parse : Nat → List Nat → Option M
  ser : M → List Nat
  msgId : M → Nat

/-! ## `bytes::BytesMut` operations

Modelled on `List Nat`.  `none` models the panic these operations perform
when the buffer holds too few bytes. -/

/-- `Buf::get_u8`: pop the first byte; panics (`none`) on an empty buffer. -/
def get_u8 : List Nat → Option (Nat × List Nat)
  | [] => none
  | b :: rest => some (b, rest)

/-- `Buf::get_u16_le`: pop two bytes, little-endian; panics (`none`) under 2 bytes. -/
def get_u16_le : List Nat → Option (Nat × List Nat)
  | b0 :: b1 :: rest => some (b0 + 256 * b1, rest)
  | _ => none

/-- `Buf::advance n`: drop the first `n` bytes; panics (`none`) past the end. -/
def advance (n : Nat) (l : List Nat) : Option (List Nat) :=
  if n ≤ l.length then some (l.drop n) else none

/-- `BytesMut::split_to n`: split off the first `n` bytes; panics (`none`) past the end. -/
def split_to (n : Nat) (l : List Nat) : Option (List Nat × List Nat) :=
  if n ≤ l.length then some (l.take n, l.drop n) else none

/-! ## The decoder (`MavMessageCodec::decode`, `src/mavlink/codec.rs`) -/

deriving instance DecidableEq for Except

/-- Result of one `decode` call: either a panic of a `bytes` operation, or the
remaining buffer together with `Result<Option<(MavHeader, M)>, SensorError>`. -/
inductive DecodeOut (M : Type) where
  | panicked
  | out (buf : List Nat) (res : Except SensorError (Option (MavHeader × M)))
deriving DecidableEq

/-- The consumption phase of `decode`, entered once
`src.remaining() >= message_len`: skip the STX byte, read the nine header
bytes, split off the payload, read the little-endian CRC, skip the 13
signature bytes when signed, recompute CRC-16/MCRF4XX over header bytes,
payload and the catalog's extra-CRC seed, and compare.  The source's
`src.advance(1)` plus nine `get_u8` calls succeed exactly when ten bytes
are buffered and panic otherwise, so they are fused into one list pattern
whose fallback arm is the panic (`none`). -/
def decodeFrame (cat : Catalog M) (s0 : List Nat) (hasSig : Bool) :
    Option (List Nat × Except SensorError (Option (MavHeader × M))) :=
  match s0 with
  | _stx :: payload_len :: incompat_flags :: compat_flags :: seq :: sysid :: compid ::
      m0 :: m1 :: m2 :: s10 =>
    match split_to payload_len s10 with
    | none => none
    | some (payload, s11) =>
      match get_u16_le s11 with
      | none => none
      | some (crc, s12) =>
        match (if hasSig then advance 13 s12 else some s12) with
        | none => none
        | some s13 =>
          let header_buf := [payload_len, incompat_flags, compat_flags,
            seq, sysid, compid, m0, m1, m2]
          let msgid := m0 + 256 * m1 + 65536 * m2
          let recvd_crc :=
            crcDigest (crcDigest (crcDigest 0xFFFF header_buf) payload) [cat.extra_crc msgid]
          if recvd_crc = crc then
            match cat.parse msgid payload with
            | some msg => some (s13, .ok (some (⟨seq, sysid, compid⟩, msg)))
            | none => some (s13, .error .mavlinkParsingError)
          else
            some (s13, .ok none)
  | _ => none

/-- `MavMessageCodec::decode`: scan for the v2 start marker `0xFD` (253),
drop the bytes before it, require the length byte and the flag byte, compute
the required total frame length (12 + payload length, +13 when the signed
bit of the incompatible flags is set), and when enough bytes are buffered run
the consumption phase; otherwise return `Ok(None)` without consuming past
the marker. -/
def decode (cat : Catalog M) (src : List Nat) : DecodeOut M :=
  match src.findIdx? (fun b => b == 253) with
  | none => .out src (.ok none)
  | some index =>
    match advance index src with
    | none => .panicked
    | some s0 =>
      match s0.get? 1 with
      | none => .out s0 (.ok none)
      | some payload_len =>
        match s0.get? 2 with
        | none => .out s0 (.ok none)
        | some flags =>
          let hasSig := flags &&& 1 == 1
          let message_len := 12 + payload_len + (if hasSig then 13 else 0)
          if message_len ≤ s0.length then
            match decodeFrame cat s0 hasSig with
            | none => .panicked
            | some (buf, res) => .out buf res
          else
            .out s0 (.ok none)

/-! ## The concrete message catalog (HEARTBEAT and NAMED_VALUE_FLOAT)

The program instantiates the codec at `M = mavlink::common::MavMessage`, an
external crate.  Modelled from the spec: the message catalog (§3, §6) with
the two message kinds the session sends — HEARTBEAT (message id 0, 9-byte
payload: `custom_mode: u32 LE`, then the five `u8` fields) and
NAMED_VALUE_FLOAT (message id 251, 18-byte payload: `time_boot_ms: u32 LE`,
the four raw bytes of the `f32` value, and the 10-byte fixed-width name).
The `f32` value is carried as its four wire bytes, so no floating-point
arithmetic is modelled. -/

/-- Value of a little-endian byte list. -/
def leVal : List Nat → Nat
  | [] => 0
  | b :: rest => b + 256 * leVal rest

/-- Little-endian 4-byte serialization of a `u32`. -/
def u32le (n : Nat) : List Nat :=
  [n % 256, n / 256 % 256, n / 65536 % 256, n / 16777216 % 256]

/-- Modelled from the spec: the two catalog message kinds used by the session
(external `mavlink::common::MavMessage`). -/
inductive MavMessage where
  | HEARTBEAT (custom_mode mavtype autopilot base_mode system_status mavlink_version : Nat)
  | NAMED_VALUE_FLOAT (time_boot_ms : Nat) (value name : List Nat)
deriving DecidableEq, Repr

/-- Modelled from the spec: catalog payload serialization (fields in wire
order, multi-byte fields little-endian). -/
def MavMessage.ser : MavMessage → List Nat
  | .HEARTBEAT cm mt ap bm ss mv => u32le cm ++ [mt, ap, bm, ss, mv]
  | .NAMED_VALUE_FLOAT tb v n => u32le tb ++ v ++ n

/-- Modelled from the spec: catalog message ids (standard MAVLink values). -/
def MavMessage.msgId : MavMessage → Nat
  | .HEARTBEAT .. => 0
  | .NAMED_VALUE_FLOAT .. => 251

/-- Modelled from the spec: the catalog's per-message extra-CRC seed byte
(standard MAVLink values: 50 for HEARTBEAT, 170 for NAMED_VALUE_FLOAT,
0 for unknown ids). -/
def commonExtraCrc (msgid : Nat) : Nat :=
  if msgid = 0 then 50 else if msgid = 251 then 170 else 0

/-- Modelled from the spec: catalog payload parsing
(`decode(message_id, version, payload) -> Message | DecodeError`); an
unknown message id or a payload of the wrong shape is a `DecodeError`
(`none`). -/
def commonParse (msgid : Nat) (payload : List Nat) : Option MavMessage :=
  if msgid = 0 then
    match payload with
    | [b0, b1, b2, b3, mt, ap, bm, ss, mv] =>
      some (.HEARTBEAT (leVal [b0, b1, b2, b3]) mt ap bm ss mv)
    | _ => none
  else if msgid = 251 then
    match payload with
    | [t0, t1, t2, t3, v0, v1, v2, v3, n0, n1, n2, n3, n4, n5, n6, n7, n8, n9] =>
      some (.NAMED_VALUE_FLOAT (leVal [t0, t1, t2, t3]) [v0, v1, v2, v3]
        [n0, n1, n2, n3, n4, n5, n6, n7, n8, n9])
    | _ => none
  else none

/-- The catalog the program binds the codec to. -/
def commonCatalog : Catalog MavMessage :=
  { extra_crc := commonExtraCrc
    parse := commonParse
    ser := MavMessage.ser
    msgId := MavMessage.msgId }

/-- Well-formedness of a catalog message: every field fits its wire type. -/
def MavMessage.wf : MavMessage → Prop
  | .HEARTBEAT cm mt ap bm ss mv =>
    cm < 4294967296 ∧ mt < 256 ∧ ap < 256 ∧ bm < 256 ∧ ss < 256 ∧ mv < 256
  | .NAMED_VALUE_FLOAT tb v n =>
    tb < 4294967296 ∧ v.length = 4 ∧ n.length = 10 ∧
      (∀ b ∈ v, b < 256) ∧ (∀ b ∈ n, b < 256)

instance : DecidablePred MavMessage.wf := by
  intro m
  cases m <;> simp only [MavMessage.wf] <;> infer_instance

/-! ## The encoder

`MavMessageCodec::encode` delegates to `mavlink::write_v2_msg` (external
crate).  Modelled from the spec: the FrameEncoder contract (§4.2) and the
bit-exact wire format (§6): marker `0xFD`; payload length (must be ≤ 255,
else `EncodeError::PayloadTooLarge`); incompatible flags 0; compatible
flags 0; sequence; system id; component id; 24-bit little-endian message
id; payload; 16-bit little-endian CRC computed identically to the decoder's
check. -/

/-- Modelled from the spec: encode failure cases (§4.2). -/
inductive EncodeError where
  | payloadTooLarge
  | serializationFailed
deriving DecidableEq, Repr

/-- Modelled from the spec: `encode(header, message) -> bytes` (§4.2, §6). -/
def encode (cat : Catalog M) (h : MavHeader) (m : M) : Except EncodeError (List Nat) :=
  let payload := cat.ser m
  if payload.length ≤ 255 then
    let msgid := cat.msgId m
    let header_buf := [payload.length, 0, 0, h.sequence, h.system_id, h.component_id,
      msgid % 256, msgid / 256 % 256, msgid / 65536 % 256]
    let crc := crc16mcrf4cc (header_buf ++ payload ++ [cat.extra_crc msgid])
    .ok (253 :: header_buf ++ payload ++ [crc % 256, crc / 256])
  else
    .error .payloadTooLarge

/-! ## The session (`Telem`, `src/mavlink/telem.rs`) -/

/-- The `Telem` session state: identity plus the outgoing sequence counter
(`AtomicU8`, so always < 256).  The owned serial stream is external I/O and
carries no decidable state. -/
structure Telem where
  system_id : Nat
  component_id : Nat
  sequence : Nat
deriving DecidableEq, Repr

/-- `Telem::try_new`: the sequence counter starts at `AtomicU8::new(0)`
(the serial-port open is external I/O; its failure aborts construction and
creates no session). -/
def Telem.try_new (system_id component_id : Nat) : Telem :=
  { system_id, component_id, sequence := 0 }

/-- `Telem::send`: `fetch_add(1)` on the `u8` counter returns the old value,
which stamps the header; the increment (mod 256) happens before the write,
whose outcome `w` (the external `mavlink.send` transport result) is returned
unchanged — the counter never rolls back. -/
def Telem.send (t : Telem) (w : Except SensorError Unit) :
    Except SensorError Unit × MavHeader × Telem :=
  (w,
   { sequence := t.sequence, system_id := t.system_id, component_id := t.component_id },
   { t with sequence := (t.sequence + 1) % 256 })

/-- Iterated `Telem::send` over a list of transport outcomes: the stamped
headers in order, and the final session state. -/
def Telem.sendN (t : Telem) : List (Except SensorError Unit) → List MavHeader × Telem
  | [] => ([], t)
  | w :: ws =>
    let (_, h, t') := t.send w
    let (hs, tF) := t'.sendN ws
    (h :: hs, tF)

/-- `Telem::heartbeat_message`: the fixed heartbeat (numeric values of the
external enum constants: `MAV_TYPE_ONBOARD_CONTROLLER` = 18,
`MAV_AUTOPILOT_INVALID` = 8, empty `MavModeFlag` = 0,
`MAV_STATE_STANDBY` = 3, `mavlink_version` = 3). -/
def Telem.heartbeat_message (_t : Telem) : MavMessage :=
  .HEARTBEAT 0 18 8 0 3 3

/-- `from_string_to_u8` (`src/util.rs`): copy at most `N` leading bytes of
the source into a zero-initialised `N`-byte array. -/
def from_string_to_u8 (N : Nat) (src : List Nat) : List Nat :=
  let len := min src.length N
  src.take len ++ List.replicate (N - len) 0

/-! ## The heartbeat ticker (`heartbeat_stream`, `src/mavlink/telem.rs`) -/

/-- Modelled from the spec: `tokio::time::interval` (external tokio crate).
Per its documentation the first tick completes immediately; tick `n`
completes once `n` periods have elapsed since creation.  The value is the
elapsed time (in the period's unit) at which tick `n` fires. -/
def intervalTick (period n : Nat) : Nat := n * period

/-- `heartbeat_stream`: wrap the interval in an `IntervalStream` and map
every tick to a clone of the session's fixed heartbeat message.  Item `n`
is the pair (elapsed time at which it is produced, message). -/
def heartbeat_stream (telem : Telem) (period : Nat) (n : Nat) : Nat × MavMessage :=
  (intervalTick period n, telem.heartbeat_message)

/-! ## The receive driver

`Telem::recv` is `self.mavlink.next()` on the `Framed` stream (external
tokio-util crate).  Modelled from the spec: the recv contract (§4.3) driven
by the standard codec-stream discipline — after appending each incoming
chunk, `decode` is called repeatedly: a decoded item or a decode error is
yielded to the caller, and a `Ok(None)` result suspends until the next
chunk arrives. -/

/-- A caller-visible outcome of the receive loop. -/
inductive Outcome (M : Type) where
  | accepted (h : MavHeader) (m : M)
  | errored (e : SensorError)
deriving DecidableEq

/-- Run `decode` repeatedly on one buffer, collecting yielded outcomes,
until it reports that more input is needed.  `fuel` bounds the iteration;
every productive `decode` call consumes at least one byte, so a fuel of
`buf.length + 1` is never exhausted.  The `panicked` branch is unreachable
(`decode_ne_panicked` below). -/
def decodeLoop (cat : Catalog M) : Nat → List Nat → List (Outcome M) × List Nat
  | 0, buf => ([], buf)
  | fuel + 1, buf =>
    match decode cat buf with
    | .panicked => ([], buf)
    | .out buf' (.ok none) => ([], buf')
    | .out buf' (.ok (some item)) =>
      let (outs, bufF) := decodeLoop cat fuel buf'
      (.accepted item.1 item.2 :: outs, bufF)
    | .out buf' (.error e) =>
      let (outs, bufF) := decodeLoop cat fuel buf'
      (.errored e :: outs, bufF)

/-- Feed a list of chunks to the decoder in order, starting from a given
buffered remainder, collecting every outcome the receive loop yields. -/
def driveChunks (cat : Catalog M) : List (List Nat) → List Nat → List (Outcome M) × List Nat
  | [], buf => ([], buf)
  | c :: cs, buf =>
    let b := buf ++ c
    let (outs, buf') := decodeLoop cat (b.length + 1) b
    let (outs2, bufF) := driveChunks cat cs buf'
    (outs ++ outs2, bufF)

/-- Flip bit `i` of the byte at index `idx` of a byte list. -/
def flipBit (l : List Nat) (idx i : Nat) : List Nat :=
  l.set idx (l.getD idx 0 ^^^ 2 ^ i)

/-! ## Lemmas about CRC-16/MCRF4XX -/

theorem xor_div_two (a b : Nat) : (a ^^^ b) / 2 = a / 2 ^^^ b / 2 := by
  apply Nat.eq_of_testBit_eq
  intro i
  simp [Nat.testBit_div_two]

theorem crcStep_lt (c : Nat) (h : c < 65536) : crcStep c < 65536 := by
  unfold crcStep
  split
  · have h1 : c / 2 < 2 ^ 16 := by omega
    have h2 : (0x8408 : Nat) < 2 ^ 16 := by omega
    have := Nat.xor_lt_two_pow h1 h2
    omega
  · omega

theorem crcStep_eq (c : Nat) :
    crcStep c = c / 2 ^^^ (if c % 2 = 1 then 0x8408 else 0) := by
  unfold crcStep
  split <;> simp

theorem xor_xor_swap (x y z : Nat) : x ^^^ y ^^^ z = x ^^^ z ^^^ y := by
  rw [Nat.xor_assoc, Nat.xor_comm y z, ← Nat.xor_assoc]

theorem xor_xor_cancel (x y z : Nat) : (x ^^^ z) ^^^ (y ^^^ z) = x ^^^ y := by
  rw [Nat.xor_assoc, Nat.xor_comm y z, Nat.xor_cancel_left]

theorem crcStep_linear (a b : Nat) : crcStep (a ^^^ b) = crcStep a ^^^ crcStep b := by
  have hab : (a ^^^ b) % 2 = (a + b) % 2 := Nat.xor_mod_two_eq
  rw [crcStep_eq, crcStep_eq, crcStep_eq, xor_div_two]
  rcases Nat.mod_two_eq_zero_or_one a with ha | ha <;>
    rcases Nat.mod_two_eq_zero_or_one b with hb | hb
  · rw [if_neg (by omega), if_neg (by omega), if_neg (by omega)]
    simp
  · rw [if_pos (by omega), if_neg (by omega), if_pos (by omega), Nat.xor_assoc,
      Nat.xor_zero]
  · rw [if_pos (by omega), if_pos (by omega), if_neg (by omega), Nat.xor_zero,
      Nat.xor_assoc, xor_xor_swap, ← Nat.xor_assoc]
  · rw [if_neg (by omega), if_pos (by omega), if_pos (by omega), Nat.xor_zero,
      xor_xor_cancel]

theorem crcStep_ne_zero (d : Nat) (hd : d ≠ 0) (hlt : d < 65536) : crcStep d ≠ 0 := by
  unfold crcStep
  rcases Nat.mod_two_eq_zero_or_one d with h | h
  · rw [if_neg (by omega)]
    omega
  · rw [if_pos h]
    intro hc
    have : d / 2 = 0x8408 := Nat.xor_eq_zero.mp hc
    omega

theorem crcIter_linear (k a b : Nat) : crcStep^[k] (a ^^^ b) = crcStep^[k] a ^^^ crcStep^[k] b := by
  induction k generalizing a b with
  | zero => simp
  | succ n ih => simp only [Function.iterate_succ_apply, crcStep_linear, ih]

theorem crcIter_lt (k c : Nat) (h : c < 65536) : crcStep^[k] c < 65536 := by
  induction k generalizing c with
  | zero => simpa
  | succ n ih => rw [Function.iterate_succ_apply]; exact ih _ (crcStep_lt c h)

theorem crcIter_ne_zero (k d : Nat) (hd : d ≠ 0) (hlt : d < 65536) : crcStep^[k] d ≠ 0 := by
  induction k generalizing d with
  | zero => simpa
  | succ n ih =>
    rw [Function.iterate_succ_apply]
    exact ih _ (crcStep_ne_zero d hd hlt) (crcStep_lt d hlt)

theorem crcByte_lt (c b : Nat) (hc : c < 65536) (hb : b < 65536) : crcByte c b < 65536 := by
  unfold crcByte
  apply crcIter_lt
  have h1 : c < 2 ^ 16 := by omega
  have h2 : b < 2 ^ 16 := by omega
  have := Nat.xor_lt_two_pow h1 h2
  omega

theorem crcByte_flip (c b e : Nat) :
    crcByte c (b ^^^ e) = crcByte c b ^^^ crcStep^[8] e := by
  unfold crcByte
  rw [← Nat.xor_assoc, crcIter_linear]

theorem crcByte_state_xor (c d b : Nat) :
    crcByte (c ^^^ d) b = crcByte c b ^^^ crcStep^[8] d := by
  unfold crcByte
  rw [xor_xor_swap, crcIter_linear]

theorem crcDigest_lt (bs : List Nat) (c : Nat) (hc : c < 65536)
    (hb : ∀ b ∈ bs, b < 65536) : crcDigest c bs < 65536 := by
  induction bs generalizing c with
  | nil => simpa [crcDigest]
  | cons b bs ih =>
    simp only [crcDigest, List.foldl_cons] at *
    exact ih (crcByte c b) (crcByte_lt c b hc (hb b (by simp)))
      (fun x hx => hb x (by simp [hx]))

theorem crcDigest_append (c : Nat) (xs ys : List Nat) :
    crcDigest c (xs ++ ys) = crcDigest (crcDigest c xs) ys := by
  simp [crcDigest, List.foldl_append]

theorem crcDigest_state_xor (bs : List Nat) (c d : Nat) :
    crcDigest (c ^^^ d) bs = crcDigest c bs ^^^ crcStep^[8 * bs.length] d := by
  induction bs generalizing c d with
  | nil => simp [crcDigest]
  | cons b bs ih =>
    simp only [crcDigest, List.foldl_cons] at *
    rw [crcByte_state_xor, ih, List.length_cons, ← Function.iterate_add_apply]
    have h8 : 8 * bs.length + 8 = 8 * (bs.length + 1) := by ring
    rw [h8]

theorem crcDigest_flip_ne (c : Nat) (pre suf : List Nat) (b e : Nat)
    (he : e ≠ 0) (helt : e < 65536) :
    crcDigest c (pre ++ (b ^^^ e) :: suf) ≠ crcDigest c (pre ++ b :: suf) := by
  rw [crcDigest_append, crcDigest_append]
  have hcons : ∀ (c' b' : Nat) (l : List Nat),
      crcDigest c' (b' :: l) = crcDigest (crcByte c' b') l := by
    intro c' b' l
    simp [crcDigest]
  rw [hcons, hcons, crcByte_flip, crcDigest_state_xor]
  intro hct
  have hD : crcStep^[8 * suf.length] (crcStep^[8] e) = 0 := by
    have h2 := congrArg
      (fun y => crcDigest (crcByte (crcDigest c pre) b) suf ^^^ y) hct
    simpa [Nat.xor_cancel_left, Nat.xor_self] using h2
  rw [← Function.iterate_add_apply] at hD
  exact crcIter_ne_zero _ _ he helt hD

/-! ## Symbolic evaluation of `decode` -/

theorem findIdx?_marker (pre rest : List Nat) (hpre : ∀ b ∈ pre, b ≠ 253) :
    (pre ++ 253 :: rest).findIdx? (fun b => b == 253) = some pre.length := by
  rw [List.findIdx?_append]
  have h1 : pre.findIdx? (fun b => b == 253) = none := by
    rw [List.findIdx?_eq_none_iff]
    intro x hx
    simpa using hpre x hx
  rw [h1]
  simp

/-- Evaluation of the consumption phase on a complete frame: the payload
split, CRC read, and (when signed) the 13-byte trailer skip all succeed, the
buffer left behind is exactly the bytes after the frame, and the recomputed
CRC covers only the nine header bytes, the payload and the extra-CRC seed —
never the signature bytes. -/
theorem decodeFrame_eval (cat : Catalog M)
    (b0 pl flags cflags seq sys comp m0 m1 m2 c0 c1 : Nat)
    (payload sig rest : List Nat) (hasSig : Bool)
    (hpl : payload.length = pl)
    (hsig : sig.length = if hasSig then 13 else 0) :
    decodeFrame cat
      (b0 :: pl :: flags :: cflags :: seq :: sys :: comp :: m0 :: m1 :: m2 ::
        (payload ++ c0 :: c1 :: (sig ++ rest))) hasSig =
      some (rest,
        if crcDigest (crcDigest (crcDigest 65535
              [pl, flags, cflags, seq, sys, comp, m0, m1, m2]) payload)
              [cat.extra_crc (m0 + 256 * m1 + 65536 * m2)] = c0 + 256 * c1 then
          match cat.parse (m0 + 256 * m1 + 65536 * m2) payload with
          | some msg => Except.ok (some (⟨seq, sys, comp⟩, msg))
          | none => Except.error .mavlinkParsingError
        else Except.ok none) := by
  have hsplit : split_to pl (payload ++ c0 :: c1 :: (sig ++ rest)) =
      some (payload, c0 :: c1 :: (sig ++ rest)) := by
    unfold split_to
    rw [if_pos (by simp [← hpl]), List.take_left' hpl, List.drop_left' hpl]
  have htrail : (if hasSig then advance 13 (sig ++ rest)
      else some (sig ++ rest)) = some rest := by
    cases hasSig with
    | false =>
      simp only [Bool.false_eq_true, if_false] at hsig ⊢
      have hnil : sig = [] := List.length_eq_zero.mp hsig
      simp [hnil]
    | true =>
      simp only [if_true] at hsig ⊢
      unfold advance
      rw [if_pos (by simp [hsig]), List.drop_left' hsig]
  simp only [decodeFrame]
  rw [hsplit]
  simp only [get_u16_le]
  simp only [htrail]
  split
  · cases cat.parse (m0 + 256 * m1 + 65536 * m2) payload <;> rfl
  · rfl



/-- Master evaluation lemma: one `decode` call on a buffer holding arbitrary
marker-free noise, then one complete frame (with a trailing signature of the
length demanded by the signed bit), then arbitrary further bytes.  The whole
frame is consumed — for the CRC-match and the CRC-mismatch outcome alike —
and the outcome is decided by the CRC comparison and the catalog. -/
theorem decode_complete (cat : Catalog M) (pre : List Nat)
    (pl flags cflags seq sys comp m0 m1 m2 c0 c1 : Nat)
    (payload sig rest : List Nat)
    (hpre : ∀ b ∈ pre, b ≠ 253)
    (hpl : payload.length = pl)
    (hsig : sig.length = if flags &&& 1 == 1 then 13 else 0) :
    decode cat (pre ++ 253 :: pl :: flags :: cflags :: seq :: sys :: comp :: m0 :: m1 :: m2 ::
        (payload ++ c0 :: c1 :: (sig ++ rest))) =
      .out rest
        (if crcDigest (crcDigest (crcDigest 65535
              [pl, flags, cflags, seq, sys, comp, m0, m1, m2]) payload)
              [cat.extra_crc (m0 + 256 * m1 + 65536 * m2)] = c0 + 256 * c1 then
          match cat.parse (m0 + 256 * m1 + 65536 * m2) payload with
          | some msg => .ok (some (⟨seq, sys, comp⟩, msg))
          | none => .error .mavlinkParsingError
        else .ok none) := by
  have hfind := findIdx?_marker pre
    (pl :: flags :: cflags :: seq :: sys :: comp :: m0 :: m1 :: m2 ::
      (payload ++ c0 :: c1 :: (sig ++ rest))) hpre
  have hadv : advance pre.length (pre ++ 253 :: pl :: flags :: cflags :: seq :: sys :: comp ::
      m0 :: m1 :: m2 :: (payload ++ c0 :: c1 :: (sig ++ rest))) =
      some (253 :: pl :: flags :: cflags :: seq :: sys :: comp ::
        m0 :: m1 :: m2 :: (payload ++ c0 :: c1 :: (sig ++ rest))) := by
    unfold advance
    rw [if_pos (by simp), List.drop_left]
  have hframe := decodeFrame_eval cat 253 pl flags cflags seq sys comp m0 m1 m2 c0 c1
    payload sig rest (flags &&& 1 == 1) hpl hsig
  have hlenok : 12 + pl + (if (flags &&& 1 == 1 : Bool) then 13 else 0) ≤
      (253 :: pl :: flags :: cflags :: seq :: sys :: comp ::
        m0 :: m1 :: m2 :: (payload ++ c0 :: c1 :: (sig ++ rest))).length := by
    cases hb : (flags &&& 1 == 1 : Bool) <;> rw [hb] at hsig <;> simp at hsig <;>
      simp [hb, hsig, ← hpl] <;> omega
  simp only [decode, hfind, hadv, List.get?]
  rw [if_pos hlenok, hframe]

/-- Whenever `decode` has verified that the buffer holds at least
`12 + payload_len (+13)` bytes from the marker, the consumption phase cannot
panic. -/
theorem decodeFrame_ne_none (cat : Catalog M) (s0 : List Nat) (hasSig : Bool)
    (pl flags : Nat)
    (h1 : s0.get? 1 = some pl) (h2 : s0.get? 2 = some flags)
    (hlen : 12 + pl + (if hasSig then 13 else 0) ≤ s0.length) :
    decodeFrame cat s0 hasSig ≠ none := by
  rcases s0 with _ | ⟨b0, _ | ⟨b1, _ | ⟨b2, s3⟩⟩⟩ <;> simp_all
  rcases s3 with _ | ⟨b3, _ | ⟨b4, _ | ⟨b5, _ | ⟨b6, _ | ⟨b7, _ | ⟨b8, _ | ⟨b9, s10⟩⟩⟩⟩⟩⟩⟩ <;>
    simp_all <;> try omega
  rcases hdrop : s10.drop pl with _ | ⟨x, _ | ⟨y, r⟩⟩ <;>
    have hlend := congrArg List.length hdrop <;>
      simp only [List.length_drop, List.length_cons, List.length_nil] at hlend
  · omega
  · omega
  have hX : (if hasSig then 13 else 0) ≤ r.length := by
    cases hasSig <;> simp_all <;> omega
  have hs10 : s10 = s10.take pl ++ x :: y ::
      (r.take (if hasSig then 13 else 0) ++ r.drop (if hasSig then 13 else 0)) := by
    rw [List.take_append_drop, ← hdrop, List.take_append_drop]
  have htake : (s10.take pl).length = pl := by
    rw [List.length_take]
    omega
  have hsigl : (r.take (if hasSig then 13 else 0)).length = if hasSig then 13 else 0 := by
    rw [List.length_take]
    omega
  rw [show (b0 :: pl :: flags :: b3 :: b4 :: b5 :: b6 :: b7 :: b8 :: b9 :: s10) =
      (b0 :: pl :: flags :: b3 :: b4 :: b5 :: b6 :: b7 :: b8 :: b9 ::
        (s10.take pl ++ x :: y ::
          (r.take (if hasSig then 13 else 0) ++ r.drop (if hasSig then 13 else 0)))) from by
    rw [← hs10]]
  rw [decodeFrame_eval cat b0 pl flags b3 b4 b5 b6 b7 b8 b9 x y
    (s10.take pl) (r.take (if hasSig then 13 else 0)) (r.drop (if hasSig then 13 else 0))
    hasSig htake hsigl]
  simp

/-- `decode` never panics: every `bytes` operation it performs is guarded by
the marker search and the total-frame-length check. -/
theorem decode_ne_panicked (cat : Catalog M) (src : List Nat) :
    decode cat src ≠ .panicked := by
  cases hf : src.findIdx? (fun b => b == 253) with
  | none => simp [decode, hf]
  | some index =>
    have hidx : index < src.length := by
      rcases List.findIdx?_eq_some_iff_getElem.mp hf with ⟨h, _, _⟩
      exact h
    have hadv : advance index src = some (src.drop index) := by
      unfold advance
      rw [if_pos (by omega)]
    cases hg1 : (src.drop index).get? 1 with
    | none =>
      simp only [decode, hf, hadv, hg1]
      simp
    | some pl =>
      cases hg2 : (src.drop index).get? 2 with
      | none =>
        simp only [decode, hf, hadv, hg1, hg2]
        simp
      | some flags =>
        simp only [decode, hf, hadv, hg1, hg2]
        by_cases hcond : (12 + pl + if (flags &&& 1 == 1 : Bool) then 13 else 0) ≤
            (src.drop index).length
        · rw [if_pos hcond]
          cases hdf : decodeFrame cat (src.drop index) (flags &&& 1 == 1) with
          | none =>
            exact absurd hdf
              (decodeFrame_ne_none cat (src.drop index) (flags &&& 1 == 1) pl flags hg1 hg2 hcond)
          | some r =>
            obtain ⟨buf, res⟩ := r
            simp [hdf]
        · rw [if_neg hcond]
          simp

/-- The only error the consumption phase can produce is the payload-parse
error (`SensorError::MavlinkParsingError`). -/
theorem decodeFrame_error (cat : Catalog M) (s0 : List Nat) (hasSig : Bool)
    (b : List Nat) (e : SensorError)
    (h : decodeFrame cat s0 hasSig = some (b, .error e)) : e = .mavlinkParsingError := by
  unfold decodeFrame at h
  repeat' split at h
  all_goals try simp_all
  all_goals
    split at h
    · split at h <;> simp_all
    · simp_all

/-- The only error `decode` can produce is the payload-parse error; in
particular a CRC mismatch never produces an error value. -/
theorem decode_error_eq (cat : Catalog M) (src b : List Nat) (e : SensorError)
    (h : decode cat src = .out b (.error e)) : e = .mavlinkParsingError := by
  unfold decode at h
  repeat' split at h
  all_goals try simp_all
  all_goals repeat' split at h
  all_goals first
    | (rw [DecodeOut.out.injEq] at h
       obtain ⟨rfl, rfl⟩ := h
       exact decodeFrame_error _ _ _ _ _ (by assumption))
    | simp_all

/-- `decode` on an empty buffer finds no marker and suspends. -/
theorem decode_nil (cat : Catalog M) : decode cat [] = .out [] (.ok none) := rfl

/-- One receive-loop round on a buffer `decode` suspends on yields nothing. -/
theorem decodeLoop_none (cat : Catalog M) (fuel : Nat) (buf buf' : List Nat)
    (h : decode cat buf = .out buf' (.ok none)) :
    decodeLoop cat (fuel + 1) buf = ([], buf') := by
  simp [decodeLoop, h]

/-- One receive-loop round on a buffer holding exactly one acceptable frame
yields that single accepted outcome and empties the buffer. -/
theorem decodeLoop_accept (cat : Catalog M) (fuel : Nat) (buf : List Nat)
    (hd : MavHeader) (m : M)
    (h : decode cat buf = .out [] (.ok (some (hd, m)))) :
    decodeLoop cat (fuel + 2) buf = ([.accepted hd m], []) := by
  simp [decodeLoop, h, decode_nil]

/-- A chunk list of nonempty chunks with empty concatenation is empty. -/
theorem flatten_nil_of_ne_nil (cs : List (List Nat)) (hne : ∀ c ∈ cs, c ≠ [])
    (h : cs.flatten = []) : cs = [] := by
  cases cs with
  | nil => rfl
  | cons c cs =>
    exfalso
    simp at h
    exact hne c (by simp) h.1

/-- Chunk-boundary independence, generic core: if a frame decodes to one
accepted item and every proper prefix of it suspends without consuming, then
feeding any nonempty-chunk partition of its remaining bytes yields exactly
that one accepted outcome and an empty final buffer. -/
theorem driveChunks_frame (cat : Catalog M) (frame : List Nat) (hd : MavHeader) (m : M)
    (hdec : decode cat frame = .out [] (.ok (some (hd, m))))
    (hpre : ∀ k, k < frame.length → decode cat (frame.take k) = .out (frame.take k) (.ok none)) :
    ∀ (cs : List (List Nat)) (k : Nat), k < frame.length → cs.flatten = frame.drop k →
      (∀ c ∈ cs, c ≠ []) →
      driveChunks cat cs (frame.take k) = ([.accepted hd m], []) := by
  intro cs
  induction cs with
  | nil =>
    intro k hk hflat _
    exfalso
    have := List.drop_eq_nil_iff.mp hflat.symm
    omega
  | cons c cs ih =>
    intro k hk hflat hne
    simp only [List.flatten_cons] at hflat
    have hcl : c.length + cs.flatten.length = frame.length - k := by
      have := congrArg List.length hflat
      simpa using this
    have hbuf : frame.take k ++ c = frame.take (k + c.length) := by
      rw [List.take_add]
      congr 1
      rw [← hflat, List.take_left]
    have hk' : k + c.length ≤ frame.length := by omega
    rcases Nat.lt_or_ge (k + c.length) frame.length with hlt | hge
    · -- frame still incomplete after this chunk
      have hloop : decodeLoop cat ((frame.take k ++ c).length + 1) (frame.take k ++ c) =
          ([], frame.take (k + c.length)) := by
        rw [hbuf]
        exact decodeLoop_none cat _ _ _ (hpre _ hlt)
      have hflat' : cs.flatten = frame.drop (k + c.length) := by
        have h1 : frame.drop (k + c.length) = (frame.drop k).drop c.length := by
          rw [List.drop_drop]
        rw [h1, ← hflat, List.drop_left]
      have hih := ih (k + c.length) hlt hflat' (fun x hx => hne x (by simp [hx]))
      simp only [driveChunks, hloop, hih]
      all_goals simp
    · -- the frame completes exactly at this chunk boundary
      have hkeq : k + c.length = frame.length := by omega
      have hbuf2 : frame.take k ++ c = frame := by
        rw [hbuf, hkeq, List.take_length]
      have hloop : decodeLoop cat ((frame.take k ++ c).length + 1) (frame.take k ++ c) =
          ([.accepted hd m], []) := by
        rw [hbuf2]
        rw [show frame.length + 1 = (frame.length - 1) + 2 from by omega]
        exact decodeLoop_accept cat _ _ _ _ hdec
      have hcs : cs = [] := by
        apply flatten_nil_of_ne_nil cs (fun x hx => hne x (by simp [hx]))
        exact List.length_eq_zero.mp (by omega)
      rw [hcs]
      simp only [driveChunks, hloop]
      all_goals simp [driveChunks]

/-- A strict prefix of a complete unsigned frame (signed bit clear in the
flags byte) makes `decode` suspend without consuming anything: the marker is
at position 0 and fewer than `12 + payload_len` bytes are buffered. -/
theorem decode_prefix (cat : Catalog M) (pl : Nat) (t : List Nat) (k : Nat)
    (ht : (253 :: pl :: 0 :: t).length = 12 + pl)
    (hk : k < 12 + pl) :
    decode cat ((253 :: pl :: 0 :: t).take k) =
      .out ((253 :: pl :: 0 :: t).take k) (.ok none) := by
  match k with
  | 0 => simp [decode]
  | 1 => simp [decode, advance]
  | 2 => simp [decode, advance]
  | (k + 3) =>
    have htk : (253 :: pl :: 0 :: t).take (k + 3) = 253 :: pl :: 0 :: t.take k := by
      simp [List.take_succ_cons]
    rw [htk]
    have ht' : t.length = 9 + pl := by
      simp at ht
      omega
    have h1 : (253 :: pl :: 0 :: t.take k).get? 1 = some pl := rfl
    have h2 : (253 :: pl :: 0 :: t.take k).get? 2 = some 0 := rfl
    have hfind : (253 :: pl :: 0 :: t.take k).findIdx? (fun b => b == 253) = some 0 := rfl
    have hadv : advance 0 (253 :: pl :: 0 :: t.take k) = some (253 :: pl :: 0 :: t.take k) := by
      simp [advance]
    have hlen2 : (253 :: pl :: 0 :: t.take k).length = 3 + min k t.length := by
      simp
      omega
    simp only [decode, hfind, hadv, h1, h2, show ((0 : Nat) &&& 1 == 1) = false from rfl,
      Bool.false_eq_true, if_false]
    rw [if_neg (by rw [hlen2]; omega)]

/-- The decoder's three-stage digest equals the one-shot CRC of the
concatenation. -/
theorem crc_triple (A B : List Nat) (s : Nat) :
    crcDigest (crcDigest (crcDigest 65535 A) B) [s] = crc16mcrf4cc (A ++ (B ++ [s])) := by
  rw [crc16mcrf4cc, crcDigest_append, crcDigest_append]

/-- Generic round trip: decoding the bytes produced by the spec-modelled
encoder yields exactly the original header and message, for any catalog
whose parse inverts its serialization on the message and whose values fit
the wire types. -/
theorem decode_encode (cat : Catalog M) (h : MavHeader) (m : M) (bs : List Nat)
    (henc : encode cat h m = .ok bs)
    (hparse : cat.parse (cat.msgId m) (cat.ser m) = some m)
    (hid : cat.msgId m < 16777216)
    (hbytes : ∀ b ∈ cat.ser m, b < 65536)
    (hseq : h.sequence < 65536) (hsys : h.system_id < 65536) (hcomp : h.component_id < 65536)
    (hec : cat.extra_crc (cat.msgId m) < 65536) :
    decode cat bs = .out [] (.ok (some (h, m))) := by
  simp only [encode] at henc
  split at henc
  case isFalse => simp at henc
  case isTrue hple =>
    rw [Except.ok.injEq] at henc
    subst henc
    have hcrcb : crc16mcrf4cc
        ([(cat.ser m).length, 0, 0, h.sequence, h.system_id, h.component_id,
          cat.msgId m % 256, cat.msgId m / 256 % 256, cat.msgId m / 65536 % 256] ++
          (cat.ser m ++ [cat.extra_crc (cat.msgId m)])) < 65536 := by
      apply crcDigest_lt
      · omega
      · intro b hb
        simp at hb
        rcases hb with hb | hb | hb | hb | hb | hb | hb | hb | hb | hb | hb
        all_goals first
          | exact hbytes b hb
          | omega
    have hdc := decode_complete cat [] ((cat.ser m).length) 0 0 h.sequence h.system_id
      h.component_id (cat.msgId m % 256) (cat.msgId m / 256 % 256) (cat.msgId m / 65536 % 256)
      (crc16mcrf4cc
        ([(cat.ser m).length, 0, 0, h.sequence, h.system_id, h.component_id,
          cat.msgId m % 256, cat.msgId m / 256 % 256, cat.msgId m / 65536 % 256] ++
          (cat.ser m ++ [cat.extra_crc (cat.msgId m)])) % 256)
      (crc16mcrf4cc
        ([(cat.ser m).length, 0, 0, h.sequence, h.system_id, h.component_id,
          cat.msgId m % 256, cat.msgId m / 256 % 256, cat.msgId m / 65536 % 256] ++
          (cat.ser m ++ [cat.extra_crc (cat.msgId m)])) / 256)
      (cat.ser m) [] [] (by simp) rfl (by simp)
    have hmsg : cat.msgId m % 256 + 256 * (cat.msgId m / 256 % 256) +
        65536 * (cat.msgId m / 65536 % 256) = cat.msgId m := by
      omega
    simp only [List.cons_append, List.nil_append, List.append_nil, List.append_assoc]
      at hdc hcrcb ⊢
    rw [hdc]
    rw [hmsg]
    rw [crc_triple]
    simp only [List.cons_append, List.nil_append, List.append_assoc]
    rw [if_pos (by omega)]
    rw [hparse]

/-- Little-endian 4-byte round trip for values that fit a `u32`. -/
theorem leVal_u32le (n : Nat) (h : n < 4294967296) : leVal (u32le n) = n := by
  simp [leVal, u32le]
  omega

/-- Catalog law: parsing inverts serialization for every well-formed
catalog message. -/
theorem commonParse_ser (m : MavMessage) (hm : m.wf) :
    commonParse m.msgId m.ser = some m := by
  cases m with
  | HEARTBEAT cm mt ap bm ss mv =>
    obtain ⟨h1, -⟩ := hm
    simp [commonParse, MavMessage.ser, MavMessage.msgId, u32le, leVal]
    omega
  | NAMED_VALUE_FLOAT tb v n =>
    obtain ⟨h1, hv, hn, -, -⟩ := hm
    rcases v with _ | ⟨v0, _ | ⟨v1, _ | ⟨v2, _ | ⟨v3, _ | ⟨v4, v'⟩⟩⟩⟩⟩ <;> simp_all
    rcases n with _ | ⟨n0, _ | ⟨n1, _ | ⟨n2, _ | ⟨n3, _ | ⟨n4, _ | ⟨n5, _ | ⟨n6, _ | ⟨n7,
      _ | ⟨n8, _ | ⟨n9, _ | ⟨n10, n'⟩⟩⟩⟩⟩⟩⟩⟩⟩⟩⟩ <;> simp_all
    simp [commonParse, MavMessage.ser, MavMessage.msgId, u32le, leVal]
    omega

/-- Serialized payloads are 9 or 18 bytes, well within the 255 limit. -/
theorem ser_length (m : MavMessage) (hm : m.wf) :
    (MavMessage.ser m).length ≤ 255 := by
  cases m with
  | HEARTBEAT cm mt ap bm ss mv => simp [MavMessage.ser, u32le]
  | NAMED_VALUE_FLOAT tb v n =>
    obtain ⟨-, hv, hn, -, -⟩ := hm
    simp [MavMessage.ser, u32le, hv, hn]

/-- Serialized payload bytes of a well-formed message fit 16 bits. -/
theorem ser_bytes_lt (m : MavMessage) (hm : m.wf) :
    ∀ b ∈ MavMessage.ser m, b < 65536 := by
  cases m with
  | HEARTBEAT cm mt ap bm ss mv =>
    obtain ⟨-, h2, h3, h4, h5, h6⟩ := hm
    intro b hb
    simp [MavMessage.ser, u32le] at hb
    rcases hb with hb | hb | hb | hb | hb | hb | hb | hb | hb <;> omega
  | NAMED_VALUE_FLOAT tb v n =>
    obtain ⟨-, -, -, hv, hn⟩ := hm
    intro b hb
    simp [MavMessage.ser, u32le] at hb
    rcases hb with hb | hb | hb | hb | hb | hb
    · omega
    · omega
    · omega
    · omega
    · exact lt_trans (hv b hb) (by norm_num)
    · exact lt_trans (hn b hb) (by norm_num)

/-- Catalog message ids fit the 24-bit wire field. -/
theorem msgId_lt (m : MavMessage) : MavMessage.msgId m < 16777216 := by
  cases m <;> simp [MavMessage.msgId]

/-- The extra-CRC seed byte is always a byte. -/
theorem commonExtraCrc_lt (id : Nat) : commonExtraCrc id < 65536 := by
  unfold commonExtraCrc
  split <;> [omega; split <;> omega]

/-- Encoding a well-formed catalog message never fails. -/
theorem encode_common_ok (h : MavHeader) (m : MavMessage) (hm : m.wf) :
    ∃ bs, encode commonCatalog h m = .ok bs := by
  simp only [encode, commonCatalog]
  rw [if_pos (ser_length m hm)]
  exact ⟨_, rfl⟩

/-- `from_string_to_u8` always yields exactly `N` bytes. -/
theorem from_string_to_u8_length (N : Nat) (src : List Nat) :
    (from_string_to_u8 N src).length = N := by
  simp [from_string_to_u8]

/-- `from_string_to_u8` yields bytes when fed bytes. -/
theorem from_string_to_u8_lt (N : Nat) (src : List Nat) (h : ∀ b ∈ src, b < 256) :
    ∀ b ∈ from_string_to_u8 N src, b < 256 := by
  intro b hb
  simp [from_string_to_u8] at hb
  rcases hb with hb | hb
  · exact h b (List.mem_of_mem_take hb)
  · omega

/-- Iterated `send`: the stamped sequence numbers are
`s, s+1, ..., s+N-1 (mod 256)` and the final counter is `(s+N) % 256`,
entirely independent of the write outcomes `ws`. -/
theorem sendN_spec (ws : List (Except SensorError Unit)) :
    ∀ t : Telem, t.sequence < 256 →
    (t.sendN ws).1.map MavHeader.sequence =
        (List.range ws.length).map (fun i => (t.sequence + i) % 256) ∧
      (t.sendN ws).2.sequence = (t.sequence + ws.length) % 256 ∧
      (t.sendN ws).2.system_id = t.system_id ∧
      (t.sendN ws).2.component_id = t.component_id := by
  induction ws with
  | nil =>
    intro t ht
    simp [Telem.sendN, Nat.mod_eq_of_lt ht]
  | cons w ws ih =>
    intro t ht
    have hstep := ih { t with sequence := (t.sequence + 1) % 256 }
      (Nat.mod_lt _ (by omega))
    obtain ⟨hmap, hfin, hsys, hcomp⟩ := hstep
    dsimp only at hmap hfin hsys hcomp
    refine ⟨?_, ?_, ?_, ?_⟩
    · simp only [Telem.sendN, Telem.send, List.length_cons, List.map_cons,
        List.range_succ_eq_map, List.map_map]
      congr 1
      · omega
      · rw [hmap]
        apply List.map_congr_left
        intro i _
        simp [Function.comp]
        omega
    · simp only [Telem.sendN, Telem.send, List.length_cons]
      rw [hfin]
      omega
    · simp only [Telem.sendN, Telem.send]
      exact hsys
    · simp only [Telem.sendN, Telem.send]
      exact hcomp

/-- When the buffer holds the marker and the length/flag bytes but fewer
bytes than the required total frame length, `decode` suspends without
consuming anything from the marker on. -/
theorem decode_await (cat : Catalog M) (pl flags : Nat) (t : List Nat)
    (hlen : (253 :: pl :: flags :: t).length <
      12 + pl + (if flags &&& 1 == 1 then 13 else 0)) :
    decode cat (253 :: pl :: flags :: t) = .out (253 :: pl :: flags :: t) (.ok none) := by
  have h1 : (253 :: pl :: flags :: t).get? 1 = some pl := rfl
  have h2 : (253 :: pl :: flags :: t).get? 2 = some flags := rfl
  have hfind : (253 :: pl :: flags :: t).findIdx? (fun b => b == 253) = some 0 := rfl
  have hadv : advance 0 (253 :: pl :: flags :: t) = some (253 :: pl :: flags :: t) := by
    simp [advance]
  simp only [decode, hfind, hadv, h1, h2]
  rw [if_neg (by omega)]

/-- The exact bytes the spec-modelled encoder emits on success. -/
theorem encode_eq (cat : Catalog M) (h : MavHeader) (m : M) (bs : List Nat)
    (henc : encode cat h m = .ok bs) :
    (cat.ser m).length ≤ 255 ∧
    bs = 253 :: (cat.ser m).length :: 0 :: 0 :: h.sequence :: h.system_id :: h.component_id ::
      cat.msgId m % 256 :: cat.msgId m / 256 % 256 :: cat.msgId m / 65536 % 256 ::
      (cat.ser m ++
        [crc16mcrf4cc ((cat.ser m).length :: 0 :: 0 :: h.sequence :: h.system_id ::
            h.component_id :: cat.msgId m % 256 :: cat.msgId m / 256 % 256 ::
            cat.msgId m / 65536 % 256 :: (cat.ser m ++ [cat.extra_crc (cat.msgId m)])) % 256,
         crc16mcrf4cc ((cat.ser m).length :: 0 :: 0 :: h.sequence :: h.system_id ::
            h.component_id :: cat.msgId m % 256 :: cat.msgId m / 256 % 256 ::
            cat.msgId m / 65536 % 256 :: (cat.ser m ++ [cat.extra_crc (cat.msgId m)])) / 256]) := by
  simp only [encode] at henc
  split at henc
  case isFalse => simp at henc
  case isTrue hple =>
    rw [Except.ok.injEq] at henc
    subst henc
    refine ⟨hple, ?_⟩
    simp [List.cons_append, List.nil_append, List.append_assoc]

set_option maxRecDepth 8192

/-- C9: for every buffer content, one `decode` call performs no out-of-bounds
buffer access and never panics — it always returns a remaining buffer and a
result, every read being guarded by the marker search and the
total-frame-length check. -/
theorem c9_decode_never_panics (cat : Catalog M) (src : List Nat) :
    ∃ buf res, decode cat src = DecodeOut.out buf res := by
  cases hd : decode cat src with
  | panicked => exact absurd hd (decode_ne_panicked cat src)
  | out buf res => exact ⟨buf, res, rfl⟩

/-- C10: a newly constructed session has sequence counter 0, and its first
`send` stamps the header with sequence 0 (advancing the counter to 1),
whatever the write outcome. -/
theorem c10_initial_sequence (system_id component_id : Nat) (w : Except SensorError Unit) :
    (Telem.try_new system_id component_id).sequence = 0 ∧
      ((Telem.try_new system_id component_id).send w).2.1.sequence = 0 ∧
      ((Telem.try_new system_id component_id).send w).2.2.sequence = 1 := by
  exact ⟨rfl, rfl, rfl⟩

/-- C8, as stated, is false on the code: `tokio::time::interval` completes
its first tick immediately, so with the default 1000 ms period the first
heartbeat trigger fires at elapsed time 0, not after one full period. -/
theorem c8_counterexample :
    (heartbeat_stream (Telem.try_new 1 1) 1000 0).1 = 0 ∧ (0 : Nat) < 1000 := by
  exact ⟨rfl, by decide⟩

/-- C8 amended: the first heartbeat trigger fires immediately (elapsed time
0); each subsequent trigger fires one full period after the previous one,
and every item carries the session's fixed heartbeat message. -/
theorem c8_ticker_schedule (t : Telem) (period n : Nat) :
    (heartbeat_stream t period 0).1 = 0 ∧
      (heartbeat_stream t period (n + 1)).1 = (heartbeat_stream t period n).1 + period ∧
      (heartbeat_stream t period n).2 = t.heartbeat_message := by
  refine ⟨by simp [heartbeat_stream, intervalTick], ?_, rfl⟩
  simp [heartbeat_stream, intervalTick]
  ring

/-- C5: N consecutive `send` calls stamp sequence numbers
`s, s+1, …, s+N-1 (mod 256)` with no gaps or repeats before wraparound; the
counter advances on every call — the final counter and every stamped header
are independent of the write outcomes, so a failed write still consumes its
sequence number and the write result is passed through unchanged. -/
theorem c5_sequence_monotonic (t : Telem) (ht : t.sequence < 256)
    (ws : List (Except SensorError Unit)) :
    (t.sendN ws).1.map MavHeader.sequence =
        (List.range ws.length).map (fun i => (t.sequence + i) % 256) ∧
      (t.sendN ws).2.sequence = (t.sequence + ws.length) % 256 ∧
      (∀ w, (t.send w).1 = w ∧ ((t.send w).2.2).sequence = (t.sequence + 1) % 256) := by
  obtain ⟨h1, h2, -, -⟩ := sendN_spec ws t ht
  exact ⟨h1, h2, fun w => ⟨rfl, rfl⟩⟩

/-- C5 witness: three sends on a fresh session — the middle one failing —
stamp sequences 0, 1, 2 and leave the counter at 3. -/
theorem c5_witness :
    ((Telem.try_new 1 1).sendN
        [Except.ok (), Except.error SensorError.mavlinkSendError, Except.ok ()]).1.map
        MavHeader.sequence = [0, 1, 2] ∧
      ((Telem.try_new 1 1).sendN
        [Except.ok (), Except.error SensorError.mavlinkSendError, Except.ok ()]).2.sequence = 3 := by
  have h := c5_sequence_monotonic (Telem.try_new 1 1) (by decide)
    [Except.ok (), Except.error SensorError.mavlinkSendError, Except.ok ()]
  exact ⟨by rw [h.1]; decide, by rw [h.2.1]; decide⟩

/-- C1, as stated, is false on the code: on a CRC mismatch the decoder
emits no outcome at all — its return value is the same `Ok(None)` it uses
to request more input — and the cursor has advanced past the entire frame,
not one byte past the marker (the buffer left is `[]`, not `drop 1`). -/
theorem c1_counterexample :
    decode commonCatalog [253, 0, 0, 0, 0, 0, 0, 0, 0, 0, 0, 0] =
        DecodeOut.out [] (Except.ok none) ∧
      ([] : List Nat) ≠ [253, 0, 0, 0, 0, 0, 0, 0, 0, 0, 0, 0].drop 1 := by
  exact ⟨by decide, by decide⟩

/-- C1 amended: for every buffered frame whose recomputed CRC does not equal
the received CRC, `decode` emits no outcome (it returns the suspend value
`Ok(None)`) and advances its cursor past the entire frame — marker, header,
payload, CRC and any signature — leaving exactly the bytes after the frame;
forward progress is guaranteed, but bytes of a frame beginning inside the
mismatching region are lost. -/
theorem c1_mismatch_consumes_frame (cat : Catalog M) (pre : List Nat)
    (pl flags cflags seq sys comp m0 m1 m2 c0 c1 : Nat) (payload sig rest : List Nat)
    (hpre : ∀ b ∈ pre, b ≠ 253)
    (hpl : payload.length = pl)
    (hsig : sig.length = if flags &&& 1 == 1 then 13 else 0)
    (hcrc : crcDigest (crcDigest (crcDigest 65535
        [pl, flags, cflags, seq, sys, comp, m0, m1, m2]) payload)
        [cat.extra_crc (m0 + 256 * m1 + 65536 * m2)] ≠ c0 + 256 * c1) :
    decode cat (pre ++ 253 :: pl :: flags :: cflags :: seq :: sys :: comp :: m0 :: m1 :: m2 ::
        (payload ++ c0 :: c1 :: (sig ++ rest))) = .out rest (.ok none) := by
  rw [decode_complete cat pre pl flags cflags seq sys comp m0 m1 m2 c0 c1 payload sig rest
    hpre hpl hsig]
  rw [if_neg hcrc]

/-- C1 witness: a concrete mismatching frame preceded by noise and followed
by two extra bytes — the decoder consumes noise and frame, keeps the two
extra bytes, and emits nothing. -/
theorem c1_witness :
    decode commonCatalog ([7] ++ 253 :: 0 :: 0 :: 0 :: 0 :: 0 :: 0 :: 0 :: 0 :: 0 ::
        ([] ++ 0 :: 0 :: ([] ++ [9, 9]))) = .out [9, 9] (.ok none) := by
  exact c1_mismatch_consumes_frame commonCatalog [7] 0 0 0 0 0 0 0 0 0 0 0 [] [] [9, 9]
    (by decide) (by decide) (by decide) (by decide)

/-- C4, as stated, is false on the code: a structurally valid frame whose
payload the catalog cannot decode (here: unknown message id 5 with a correct
CRC) makes `decode` return an error, which the framed receive loop yields
to the caller — payload-decode rejections ARE caller-visible. -/
theorem c4_counterexample :
    driveChunks commonCatalog [[253, 0, 0, 0, 0, 0, 0, 5, 0, 0, 208, 242]] [] =
      ([Outcome.errored SensorError.mavlinkParsingError], []) := by
  decide

/-- C4 amended: checksum rejections are indeed never surfaced — the only
error `decode` (and hence `recv`) can produce besides transport failures is
the payload-parse error — but payload-decode rejections are surfaced to the
caller as errors rather than being swallowed. -/
theorem c4_error_surfacing :
    (∀ (M : Type) (cat : Catalog M) (src b : List Nat) (e : SensorError),
      decode cat src = .out b (.error e) → e = SensorError.mavlinkParsingError) ∧
    (∃ src : List Nat,
      decode commonCatalog src = .out [] (.error SensorError.mavlinkParsingError)) := by
  constructor
  · intro M cat src b e h
    exact decode_error_eq cat src b e h
  · exact ⟨[253, 0, 0, 0, 0, 0, 0, 5, 0, 0, 208, 242], by decide⟩

/-- C4 witness: the error characterization applied to a concrete buffer on
which `decode` produces an error. -/
theorem c4_witness : SensorError.mavlinkParsingError = SensorError.mavlinkParsingError :=
  c4_error_surfacing.1 MavMessage commonCatalog
    [253, 0, 0, 0, 0, 0, 0, 5, 0, 0, 208, 242] [] SensorError.mavlinkParsingError (by decide)

/-- C7: a buffered frame with the signed bit (bit 0 of the incompatible
flags) set requires 13 trailing signature bytes beyond the CRC — with fewer
buffered bytes than `10 + payload_len + 2 + 13` from the marker it suspends
consuming nothing — and, once complete, the 13 trailer bytes are consumed
for the CRC-match and CRC-mismatch outcome alike while the recomputed CRC
covers only the nine header bytes, the payload and the extra-CRC seed;
with the bit clear no trailing bytes are required or consumed. -/
theorem c7_signed_trailer :
    (∀ (M : Type) (cat : Catalog M) (pre : List Nat)
      (pl flags cflags seq sys comp m0 m1 m2 c0 c1 : Nat) (payload sig rest : List Nat),
      (∀ b ∈ pre, b ≠ 253) → payload.length = pl → (flags &&& 1 == 1) = true →
      sig.length = 13 →
      decode cat (pre ++ 253 :: pl :: flags :: cflags :: seq :: sys :: comp ::
          m0 :: m1 :: m2 :: (payload ++ c0 :: c1 :: (sig ++ rest))) =
        .out rest
          (if crcDigest (crcDigest (crcDigest 65535
                [pl, flags, cflags, seq, sys, comp, m0, m1, m2]) payload)
                [cat.extra_crc (m0 + 256 * m1 + 65536 * m2)] = c0 + 256 * c1 then
            match cat.parse (m0 + 256 * m1 + 65536 * m2) payload with
            | some msg => .ok (some (⟨seq, sys, comp⟩, msg))
            | none => .error .mavlinkParsingError
          else .ok none)) ∧
    (∀ (M : Type) (cat : Catalog M) (pl flags : Nat) (t : List Nat),
      (flags &&& 1 == 1) = true → (253 :: pl :: flags :: t).length < 25 + pl →
      decode cat (253 :: pl :: flags :: t) = .out (253 :: pl :: flags :: t) (.ok none)) ∧
    (∀ (M : Type) (cat : Catalog M) (pre : List Nat)
      (pl flags cflags seq sys comp m0 m1 m2 c0 c1 : Nat) (payload rest : List Nat),
      (∀ b ∈ pre, b ≠ 253) → payload.length = pl → (flags &&& 1 == 1) = false →
      decode cat (pre ++ 253 :: pl :: flags :: cflags :: seq :: sys :: comp ::
          m0 :: m1 :: m2 :: (payload ++ c0 :: c1 :: rest)) =
        .out rest
          (if crcDigest (crcDigest (crcDigest 65535
                [pl, flags, cflags, seq, sys, comp, m0, m1, m2]) payload)
                [cat.extra_crc (m0 + 256 * m1 + 65536 * m2)] = c0 + 256 * c1 then
            match cat.parse (m0 + 256 * m1 + 65536 * m2) payload with
            | some msg => .ok (some (⟨seq, sys, comp⟩, msg))
            | none => .error .mavlinkParsingError
          else .ok none)) := by
  refine ⟨?_, ?_, ?_⟩
  · intro M cat pre pl flags cflags seq sys comp m0 m1 m2 c0 c1 payload sig rest
      hpre hpl hflag hsigl
    exact decode_complete cat pre pl flags cflags seq sys comp m0 m1 m2 c0 c1
      payload sig rest hpre hpl (by rw [hflag]; simpa using hsigl)
  · intro M cat pl flags t hflag hlen
    apply decode_await
    rw [hflag]
    simp only [if_true]
    simp at hlen ⊢
    omega
  · intro M cat pre pl flags cflags seq sys comp m0 m1 m2 c0 c1 payload rest
      hpre hpl hflag
    have h := decode_complete cat pre pl flags cflags seq sys comp m0 m1 m2 c0 c1
      payload [] rest hpre hpl (by rw [hflag]; simp)
    simpa using h

/-- C7 witness: a concrete signed frame (flags byte 1, empty payload, wrong
CRC, 13 trailer bytes, two bytes of following input) is consumed through its
trailer, leaving exactly the following bytes. -/
theorem c7_witness :
    decode commonCatalog ([] ++ 253 :: 0 :: 1 :: 0 :: 0 :: 0 :: 0 :: 0 :: 0 :: 0 ::
        ([] ++ 0 :: 0 :: ([1, 2, 3, 4, 5, 6, 7, 8, 9, 10, 11, 12, 13] ++ [9, 9]))) =
      .out [9, 9] (.ok none) := by
  rw [c7_signed_trailer.1 MavMessage commonCatalog [] 0 1 0 0 0 0 0 0 0 0 0 []
    [1, 2, 3, 4, 5, 6, 7, 8, 9, 10, 11, 12, 13] [9, 9]
    (by decide) (by decide) (by decide) (by decide)]
  decide

/-- C2: for every valid (header, message) pair, decoding the bytes produced
by encoding the pair yields exactly the original header (sequence, system
id, component id) and a message equal to the original in all fields —
including, in the second conjunct, messages whose NAMED_VALUE_FLOAT name
field was produced by the fixed-width truncation/zero-padding of
`from_string_to_u8`. -/
theorem c2_roundtrip :
    (∀ (h : MavHeader) (m : MavMessage),
      h.sequence < 256 → h.system_id < 256 → h.component_id < 256 → m.wf →
      ∃ bs, encode commonCatalog h m = .ok bs ∧
        decode commonCatalog bs = .out [] (.ok (some (h, m)))) ∧
    (∀ (h : MavHeader) (tb : Nat) (v s : List Nat),
      h.sequence < 256 → h.system_id < 256 → h.component_id < 256 →
      tb < 4294967296 → v.length = 4 → (∀ b ∈ v, b < 256) → (∀ b ∈ s, b < 256) →
      ∃ bs,
        encode commonCatalog h (.NAMED_VALUE_FLOAT tb v (from_string_to_u8 10 s)) = .ok bs ∧
        decode commonCatalog bs =
          .out [] (.ok (some (h, .NAMED_VALUE_FLOAT tb v (from_string_to_u8 10 s))))) := by
  have part1 : ∀ (h : MavHeader) (m : MavMessage),
      h.sequence < 256 → h.system_id < 256 → h.component_id < 256 → m.wf →
      ∃ bs, encode commonCatalog h m = .ok bs ∧
        decode commonCatalog bs = .out [] (.ok (some (h, m))) := by
    intro h m h1 h2 h3 hm
    obtain ⟨bs, hbs⟩ := encode_common_ok h m hm
    refine ⟨bs, hbs, ?_⟩
    exact decode_encode commonCatalog h m bs hbs (commonParse_ser m hm) (msgId_lt m)
      (ser_bytes_lt m hm) (by omega) (by omega) (by omega) (commonExtraCrc_lt _)
  refine ⟨part1, ?_⟩
  intro h tb v s h1 h2 h3 htb hv4 hvb hsb
  exact part1 h (.NAMED_VALUE_FLOAT tb v (from_string_to_u8 10 s)) h1 h2 h3
    ⟨htb, hv4, from_string_to_u8_length 10 s, hvb, from_string_to_u8_lt 10 s hsb⟩

set_option maxRecDepth 65536 in
/-- C2 witness: a concrete heartbeat and a concrete named float (name padded
from 3 bytes to 10) both round trip. -/
theorem c2_witness :
    (∃ bs, encode commonCatalog ⟨5, 1, 1⟩ (.HEARTBEAT 0 18 8 0 3 3) = .ok bs ∧
      decode commonCatalog bs =
        .out [] (.ok (some (⟨5, 1, 1⟩, .HEARTBEAT 0 18 8 0 3 3)))) ∧
    (∃ bs,
      encode commonCatalog ⟨7, 1, 1⟩
          (.NAMED_VALUE_FLOAT 1234 [1, 2, 3, 4] (from_string_to_u8 10 [99, 104, 52])) = .ok bs ∧
      decode commonCatalog bs =
        .out [] (.ok (some (⟨7, 1, 1⟩,
          .NAMED_VALUE_FLOAT 1234 [1, 2, 3, 4] (from_string_to_u8 10 [99, 104, 52]))))) := by
  constructor
  · exact c2_roundtrip.1 ⟨5, 1, 1⟩ (.HEARTBEAT 0 18 8 0 3 3)
      (by decide) (by decide) (by decide) (by decide)
  · exact c2_roundtrip.2 ⟨7, 1, 1⟩ 1234 [1, 2, 3, 4] [99, 104, 52]
      (by decide) (by decide) (by decide) (by decide) (by decide) (by decide) (by decide)

/-- C3: for every valid encoded frame and every partition of its bytes into
nonempty chunks, feeding the chunks to a fresh decoder in order yields
exactly one Accepted outcome carrying the original header and message; and
while the frame is incomplete the decoder produces no outcome and consumes
nothing at or after the marker. -/
theorem c3_chunk_boundary_independence (h : MavHeader) (m : MavMessage) (bs : List Nat)
    (chunks : List (List Nat))
    (h1 : h.sequence < 256) (h2 : h.system_id < 256) (h3 : h.component_id < 256)
    (hm : m.wf)
    (henc : encode commonCatalog h m = .ok bs)
    (hflat : chunks.flatten = bs)
    (hne : ∀ c ∈ chunks, c ≠ []) :
    driveChunks commonCatalog chunks [] = ([.accepted h m], []) ∧
    (∀ k, k < bs.length → decode commonCatalog (bs.take k) = .out (bs.take k) (.ok none)) := by
  have hdec : decode commonCatalog bs = .out [] (.ok (some (h, m))) :=
    decode_encode commonCatalog h m bs henc (commonParse_ser m hm) (msgId_lt m)
      (ser_bytes_lt m hm) (by omega) (by omega) (by omega) (commonExtraCrc_lt _)
  obtain ⟨hple, hshape⟩ := encode_eq commonCatalog h m bs henc
  have hlenbs : bs.length = 12 + (commonCatalog.ser m).length := by
    rw [hshape]
    simp
    omega
  have hpre : ∀ k, k < bs.length →
      decode commonCatalog (bs.take k) = .out (bs.take k) (.ok none) := by
    intro k hk
    rw [hshape]
    apply decode_prefix
    · rw [← hshape, hlenbs]
    · rw [← hlenbs]
      exact hk
  have hlen0 : 0 < bs.length := by omega
  have hdrive := driveChunks_frame commonCatalog bs h m hdec hpre chunks 0 hlen0
    (by simpa using hflat) hne
  constructor
  · simpa using hdrive
  · exact hpre

set_option maxRecDepth 65536 in
/-- C3 witness: the 21-byte heartbeat frame split into two chunks yields
exactly one Accepted outcome. -/
theorem c3_witness :
    driveChunks commonCatalog
        [[253, 9, 0, 0, 5, 1, 1, 0, 0, 0], [0, 0, 0, 0, 18, 8, 0, 3, 3, 97, 248]] [] =
      ([.accepted ⟨5, 1, 1⟩ (.HEARTBEAT 0 18 8 0 3 3)], []) :=
  (c3_chunk_boundary_independence ⟨5, 1, 1⟩ (.HEARTBEAT 0 18 8 0 3 3)
    [253, 9, 0, 0, 5, 1, 1, 0, 0, 0, 0, 0, 0, 0, 18, 8, 0, 3, 3, 97, 248]
    [[253, 9, 0, 0, 5, 1, 1, 0, 0, 0], [0, 0, 0, 0, 18, 8, 0, 3, 3, 97, 248]]
    (by decide) (by decide) (by decide) (by decide) (by decide) (by decide) (by decide)).1

/-- Decomposition of a list at an index below its length. -/
theorem list_decomp (l : List Nat) (n : Nat) (h : n < l.length) :
    l = l.take n ++ l.getD n 0 :: l.drop (n + 1) := by
  conv_lhs => rw [← List.take_append_drop n l]
  congr 1
  rw [List.getD_eq_getElem l 0 h]
  exact (List.getElem_cons_drop l n h).symm

theorem append_cons_assoc (X Y Z : List Nat) (c s : Nat) :
    X ++ ((Y ++ c :: Z) ++ [s]) = (X ++ Y) ++ c :: (Z ++ [s]) := by
  simp

/-- C6 amended: flipping any single bit of a payload byte of a valid encoded
frame makes the decoder consume the whole frame and emit no outcome at all —
never a false Accepted; its return value is the same `Ok(None)` it uses to
request more input, so no `Rejected(ChecksumMismatch)` is observable. -/
theorem c6_flip_never_accepted (h : MavHeader) (m : MavMessage) (bs : List Nat) (j i : Nat)
    (h1 : h.sequence < 256) (h2 : h.system_id < 256) (h3 : h.component_id < 256)
    (hm : m.wf)
    (henc : encode commonCatalog h m = .ok bs)
    (hj : j < (MavMessage.ser m).length) (hi : i < 8) :
    decode commonCatalog (flipBit bs (10 + j) i) = .out [] (.ok none) := by
  obtain ⟨hple, hshape⟩ := encode_eq commonCatalog h m bs henc
  have hj' : j < (commonCatalog.ser m).length := hj
  have hbs : bs = [253, (commonCatalog.ser m).length, 0, 0, h.sequence, h.system_id,
      h.component_id, commonCatalog.msgId m % 256, commonCatalog.msgId m / 256 % 256,
      commonCatalog.msgId m / 65536 % 256] ++
      (commonCatalog.ser m ++
        [crc16mcrf4cc ((commonCatalog.ser m).length :: 0 :: 0 :: h.sequence :: h.system_id ::
            h.component_id :: commonCatalog.msgId m % 256 :: commonCatalog.msgId m / 256 % 256 ::
            commonCatalog.msgId m / 65536 % 256 ::
            (commonCatalog.ser m ++ [commonCatalog.extra_crc (commonCatalog.msgId m)])) % 256,
         crc16mcrf4cc ((commonCatalog.ser m).length :: 0 :: 0 :: h.sequence :: h.system_id ::
            h.component_id :: commonCatalog.msgId m % 256 :: commonCatalog.msgId m / 256 % 256 ::
            commonCatalog.msgId m / 65536 % 256 ::
            (commonCatalog.ser m ++ [commonCatalog.extra_crc (commonCatalog.msgId m)])) / 256]) :=
    hshape
  have hflip : flipBit bs (10 + j) i =
      253 :: (commonCatalog.ser m).length :: 0 :: 0 :: h.sequence :: h.system_id ::
        h.component_id :: commonCatalog.msgId m % 256 :: commonCatalog.msgId m / 256 % 256 ::
        commonCatalog.msgId m / 65536 % 256 ::
        ((commonCatalog.ser m).set j ((commonCatalog.ser m).getD j 0 ^^^ 2 ^ i) ++
          [crc16mcrf4cc ((commonCatalog.ser m).length :: 0 :: 0 :: h.sequence :: h.system_id ::
              h.component_id :: commonCatalog.msgId m % 256 :: commonCatalog.msgId m / 256 % 256 ::
              commonCatalog.msgId m / 65536 % 256 ::
              (commonCatalog.ser m ++ [commonCatalog.extra_crc (commonCatalog.msgId m)])) % 256,
           crc16mcrf4cc ((commonCatalog.ser m).length :: 0 :: 0 :: h.sequence :: h.system_id ::
              h.component_id :: commonCatalog.msgId m % 256 :: commonCatalog.msgId m / 256 % 256 ::
              commonCatalog.msgId m / 65536 % 256 ::
              (commonCatalog.ser m ++ [commonCatalog.extra_crc (commonCatalog.msgId m)])) / 256]) := by
    unfold flipBit
    rw [hbs]
    rw [List.set_append_right _ _ (by simp)]
    rw [List.getD_append_right _ _ _ _ (by simp)]
    rw [show (10 + j) -
        ([253, (commonCatalog.ser m).length, 0, 0, h.sequence, h.system_id,
          h.component_id, commonCatalog.msgId m % 256, commonCatalog.msgId m / 256 % 256,
          commonCatalog.msgId m / 65536 % 256] : List Nat).length = j from by simp]
    rw [List.set_append_left _ _ hj', List.getD_append _ _ _ _ hj']
    rfl
  rw [hflip]
  have hdc := decode_complete commonCatalog [] ((commonCatalog.ser m).length) 0 0
    h.sequence h.system_id h.component_id (commonCatalog.msgId m % 256)
    (commonCatalog.msgId m / 256 % 256) (commonCatalog.msgId m / 65536 % 256)
    (crc16mcrf4cc ((commonCatalog.ser m).length :: 0 :: 0 :: h.sequence :: h.system_id ::
        h.component_id :: commonCatalog.msgId m % 256 :: commonCatalog.msgId m / 256 % 256 ::
        commonCatalog.msgId m / 65536 % 256 ::
        (commonCatalog.ser m ++ [commonCatalog.extra_crc (commonCatalog.msgId m)])) % 256)
    (crc16mcrf4cc ((commonCatalog.ser m).length :: 0 :: 0 :: h.sequence :: h.system_id ::
        h.component_id :: commonCatalog.msgId m % 256 :: commonCatalog.msgId m / 256 % 256 ::
        commonCatalog.msgId m / 65536 % 256 ::
        (commonCatalog.ser m ++ [commonCatalog.extra_crc (commonCatalog.msgId m)])) / 256)
    ((commonCatalog.ser m).set j ((commonCatalog.ser m).getD j 0 ^^^ 2 ^ i)) [] []
    (by simp) (by simp) (by simp)
  simp only [List.nil_append, List.append_nil] at hdc
  rw [hdc]
  have hidlt : commonCatalog.msgId m < 16777216 := msgId_lt m
  have hmsg : commonCatalog.msgId m % 256 + 256 * (commonCatalog.msgId m / 256 % 256) +
      65536 * (commonCatalog.msgId m / 65536 % 256) = commonCatalog.msgId m := by
    omega
  rw [hmsg]
  have hbytes : ∀ b ∈ commonCatalog.ser m, b < 65536 := ser_bytes_lt m hm
  have hec : commonCatalog.extra_crc (commonCatalog.msgId m) < 65536 := commonExtraCrc_lt _
  have hClt : crc16mcrf4cc ((commonCatalog.ser m).length :: 0 :: 0 :: h.sequence ::
      h.system_id :: h.component_id :: commonCatalog.msgId m % 256 ::
      commonCatalog.msgId m / 256 % 256 :: commonCatalog.msgId m / 65536 % 256 ::
      (commonCatalog.ser m ++ [commonCatalog.extra_crc (commonCatalog.msgId m)])) < 65536 := by
    apply crcDigest_lt
    · omega
    · intro b hb
      simp at hb
      rcases hb with hb | hb | hb | hb | hb | hb | hb | hb | hb | hb | hb
      all_goals first
        | exact hbytes b hb
        | omega
  rw [show crc16mcrf4cc ((commonCatalog.ser m).length :: 0 :: 0 :: h.sequence ::
        h.system_id :: h.component_id :: commonCatalog.msgId m % 256 ::
        commonCatalog.msgId m / 256 % 256 :: commonCatalog.msgId m / 65536 % 256 ::
        (commonCatalog.ser m ++ [commonCatalog.extra_crc (commonCatalog.msgId m)])) % 256 +
      256 * (crc16mcrf4cc ((commonCatalog.ser m).length :: 0 :: 0 :: h.sequence ::
        h.system_id :: h.component_id :: commonCatalog.msgId m % 256 ::
        commonCatalog.msgId m / 256 % 256 :: commonCatalog.msgId m / 65536 % 256 ::
        (commonCatalog.ser m ++ [commonCatalog.extra_crc (commonCatalog.msgId m)])) / 256) =
      crc16mcrf4cc ((commonCatalog.ser m).length :: 0 :: 0 :: h.sequence ::
        h.system_id :: h.component_id :: commonCatalog.msgId m % 256 ::
        commonCatalog.msgId m / 256 % 256 :: commonCatalog.msgId m / 65536 % 256 ::
        (commonCatalog.ser m ++ [commonCatalog.extra_crc (commonCatalog.msgId m)])) from by
    omega]
  rw [if_neg ?hne]
  case hne =>
    rw [crc_triple]
    show crc16mcrf4cc
        ([(commonCatalog.ser m).length, 0, 0, h.sequence, h.system_id, h.component_id,
          commonCatalog.msgId m % 256, commonCatalog.msgId m / 256 % 256,
          commonCatalog.msgId m / 65536 % 256] ++
          ((commonCatalog.ser m).set j ((commonCatalog.ser m).getD j 0 ^^^ 2 ^ i) ++
            [commonCatalog.extra_crc (commonCatalog.msgId m)])) ≠
      crc16mcrf4cc
        ([(commonCatalog.ser m).length, 0, 0, h.sequence, h.system_id, h.component_id,
          commonCatalog.msgId m % 256, commonCatalog.msgId m / 256 % 256,
          commonCatalog.msgId m / 65536 % 256] ++
          (commonCatalog.ser m ++ [commonCatalog.extra_crc (commonCatalog.msgId m)]))
    have hPdecomp : (commonCatalog.ser m).take j ++
        (commonCatalog.ser m).getD j 0 :: (commonCatalog.ser m).drop (j + 1) =
        commonCatalog.ser m := (list_decomp _ j hj').symm
    have hres := crcDigest_flip_ne 65535
      ([(commonCatalog.ser m).length, 0, 0, h.sequence, h.system_id, h.component_id,
        commonCatalog.msgId m % 256, commonCatalog.msgId m / 256 % 256,
        commonCatalog.msgId m / 65536 % 256] ++ (commonCatalog.ser m).take j)
      ((commonCatalog.ser m).drop (j + 1) ++ [commonCatalog.extra_crc (commonCatalog.msgId m)])
      ((commonCatalog.ser m).getD j 0) (2 ^ i)
      ((Nat.pow_pos (by omega)).ne')
      (by have hp : (2 : Nat) ^ i < 2 ^ 16 := Nat.pow_lt_pow_right (by omega) (by omega)
          omega)
    rw [← append_cons_assoc, ← append_cons_assoc] at hres
    rw [← List.set_eq_take_cons_drop _ hj'] at hres
    rw [hPdecomp] at hres
    exact hres



set_option maxRecDepth 65536 in
/-- C6, as stated, is false on the code: flipping payload bit 0 of byte 0 of
a valid heartbeat frame makes the decoder return the very same value it
returns on an empty buffer — no `Rejected(ChecksumMismatch)` outcome exists
or is emitted; the corrupt frame is silently consumed. -/
theorem c6_counterexample :
    decode commonCatalog
        (flipBit [253, 9, 0, 0, 5, 1, 1, 0, 0, 0, 0, 0, 0, 0, 18, 8, 0, 3, 3, 97, 248] 10 0) =
        DecodeOut.out [] (Except.ok none) ∧
      decode commonCatalog [] = DecodeOut.out [] (Except.ok none) := by
  exact ⟨by decide, by decide⟩

set_option maxRecDepth 65536 in
/-- C6 witness: flipping bit 3 of payload byte 1 of the concrete heartbeat
frame is silently discarded. -/
theorem c6_witness :
    decode commonCatalog
        (flipBit [253, 9, 0, 0, 5, 1, 1, 0, 0, 0, 0, 0, 0, 0, 18, 8, 0, 3, 3, 97, 248]
          (10 + 1) 3) = .out [] (.ok none) :=
  c6_flip_never_accepted ⟨5, 1, 1⟩ (.HEARTBEAT 0 18 8 0 3 3)
    [253, 9, 0, 0, 5, 1, 1, 0, 0, 0, 0, 0, 0, 0, 18, 8, 0, 3, 3, 97, 248] 1 3
    (by decide) (by decide) (by decide) (by decide) (by decide) (by decide) (by decide)

end MetecSensor
